import Mathlib

/-!
Verification of the TFSA contribution-room tracker (`TFSA_Tracker.py`).

The core of the program is the room-accrual computation (source lines
215-237): the ledger is split into per-year deposit sums and per-year
withdrawal-magnitude sums, a left-to-right fold over the years from
`start_year` to `current_year` accumulates `room_used` and a clamped
`carry_forward`, and the summary combines `get_total_limit`, the
pre-current-year withdrawal credit and `room_used`.

Currency amounts are modelled as `Int`.  Python's `dict.get(k, 0)` is a
total lookup with default; `dict[k]` raises `KeyError` on a missing key
and is modelled as an `Option`-valued lookup, which makes
`get_total_limit` (source lines 141-143) `Option`-valued.
-/

namespace TFSA

/-- A ledger transaction: the calendar year of its date and its signed
amount (positive = deposit, negative = withdrawal), as in the
`contributions` rows of the source.  The institution label and the row id
do not enter the computation. -/
structure Tx where
  year : Int
  amount : Int
deriving DecidableEq

/-- A limit schedule: an association list from year to limit, modelling
the Python dict `TFSA_LIMITS` (source lines 17-24). -/
abbrev Sched := List (Int × Int)

/-- The `TFSA_LIMITS` table from source lines 17-24. -/
def TFSA_LIMITS : Sched :=
  [(2009, 5000), (2010, 5000), (2011, 5000),
   (2012, 5000), (2013, 5500), (2014, 5500),
   (2015, 10000), (2016, 5500), (2017, 5500),
   (2018, 5500), (2019, 6000), (2020, 6000),
   (2021, 6000), (2022, 6000), (2023, 6500),
   (2024, 7000), (2025, 7000)]

/-- `schedule.get(y, 0)`: lookup with default 0 (source line 223). -/
def schedGet (s : Sched) (y : Int) : Int :=
  (s.lookup y).getD 0

/-- `schedule[y]`: plain dict indexing; a missing key raises `KeyError`,
modelled as `none` (used by `get_total_limit`, source line 143). -/
def schedIndex (s : Sched) (y : Int) : Option Int :=
  s.lookup y

/-- `range(a, b + 1)` from the source (lines 143 and 222) as a list of
integers in increasing order. -/
def yearRange (a b : Int) : List Int :=
  (List.range (b + 1 - a).toNat).map (fun i : Nat => a + (i : Int))

/-- `sum(schedule[y] for y in ys)` with `KeyError` propagation: `none`
as soon as any year is missing from the schedule. -/
def sumIndexed (s : Sched) : List Int → Option Int
  | [] => some 0
  | y :: ys =>
    match schedIndex s y, sumIndexed s ys with
    | some v, some r => some (v + r)
    | _, _ => none

/-- `get_total_limit` (source lines 141-143):
`sum(TFSA_LIMITS[y] for y in range(start_year, this_year + 1))`, with the
schedule and the current year taken as parameters.  Dict indexing makes
it fail (`KeyError`, modelled as `none`) when any year of the range is
not a key of the schedule. -/
def get_total_limit (s : Sched) (a b : Int) : Option Int :=
  sumIndexed s (yearRange a b)

/-- `deposits_by_year.get(y, 0)` (source lines 216 and 224): the sum of
the positive amounts of the transactions dated in year `y`. -/
def depositsIn (L : List Tx) (y : Int) : Int :=
  ((L.filter (fun t => decide (t.amount > 0) && decide (t.year = y))).map
    (fun t => t.amount)).sum

/-- `withdrawals_by_year.get(y, 0)` (source lines 217 and 225): the sum
of the magnitudes of the negative amounts of the transactions dated in
year `y`. -/
def withdrawalsIn (L : List Tx) (y : Int) : Int :=
  ((L.filter (fun t => decide (t.amount < 0) && decide (t.year = y))).map
    (fun t => -t.amount)).sum

/-- The loop's `withdrawal` variable (source line 225):
`withdrawals_by_year.get(yr - 1, 0) if yr > start_year else 0`. -/
def withdrawalCredit (L : List Tx) (a yr : Int) : Int :=
  if yr > a then withdrawalsIn L (yr - 1) else 0

/-- `room_this_year` (source line 226):
`limit_year + carry_forward + withdrawal`, with `carry_forward` the
incoming state `cf`. -/
def room_this_year (s : Sched) (L : List Tx) (a : Int) (cf yr : Int) : Int :=
  schedGet s yr + cf + withdrawalCredit L a yr

/-- One iteration of the accrual loop (source lines 222-228) on the state
`(room_used, carry_forward)`. -/
def accrualStep (s : Sched) (L : List Tx) (a : Int)
    (st : Int × Int) (yr : Int) : Int × Int :=
  let deposit := depositsIn L yr
  (st.1 + deposit, max (room_this_year s L a st.2 yr - deposit) 0)

/-- The whole accrual loop (source lines 220-228): fold over the years
`start_year .. current_year` from the initial state `(0, 0)`. -/
def accrualFold (s : Sched) (L : List Tx) (a b : Int) : Int × Int :=
  (yearRange a b).foldl (accrualStep s L a) (0, 0)

/-- The loop's final `room_used` value. -/
def room_used (s : Sched) (L : List Tx) (a b : Int) : Int :=
  (accrualFold s L a b).1

/-- The index of the `withdrawals_by_year` series: the distinct years in
which some withdrawal is dated. -/
def withdrawalYears (L : List Tx) : List Int :=
  ((L.filter (fun t => decide (t.amount < 0))).map (fun t => t.year)).dedup

/-- `withdrawals_by_year.loc[withdrawals_by_year.index < current_year].sum()`
(source line 230): per-year withdrawal magnitudes summed over the index
years strictly before `b`. -/
def withdrawalsBeforeG (L : List Tx) (b : Int) : Int :=
  (((withdrawalYears L).filter (fun y => decide (y < b))).map
    (withdrawalsIn L)).sum

/-- The per-transaction form of the same quantity: the summed magnitudes
of all withdrawals dated strictly before year `b`. -/
def withdrawalsBefore (L : List Tx) (b : Int) : Int :=
  ((L.filter (fun t => decide (t.amount < 0) && decide (t.year < b))).map
    (fun t => -t.amount)).sum

/-- The sum of the positive transaction amounts dated in years of
`[a, b]`. -/
def depositsInRange (L : List Tx) (a b : Int) : Int :=
  ((L.filter (fun t =>
      decide (t.amount > 0) && (decide (a ≤ t.year) && decide (t.year ≤ b)))).map
    (fun t => t.amount)).sum

/-- The displayed summary (source lines 189, 230, 236-237). -/
structure Summary where
  totalLifetimeLimit : Int
  roomUsed : Int
  totalRemaining : Int
  isOverContributed : Bool
deriving DecidableEq

/-- The whole computation: `total_limit` (line 189), the accrual loop
(lines 220-228), `room_remaining` (line 230) and the over-contribution
flag (line 236).  `none` when `get_total_limit` raises `KeyError`. -/
def computeSummary (s : Sched) (a b : Int) (L : List Tx) : Option Summary :=
  (get_total_limit s a b).map (fun tl =>
    let ru := room_used s L a b
    { totalLifetimeLimit := tl
      roomUsed := ru
      totalRemaining := tl + withdrawalsBeforeG L b - ru
      isOverContributed := decide (ru > tl) })

/-! ### Helper lemmas -/

lemma sum_map_add (g h : Int → Int) (ys : List Int) :
    (ys.map (fun y => g y + h y)).sum = (ys.map g).sum + (ys.map h).sum := by
  induction ys with
  | nil => simp
  | cons y ys ih => simp only [List.map_cons, List.sum_cons, ih]; ring

lemma sum_map_ite_mem (x c : Int) :
    ∀ (ys : List Int), ys.Nodup →
      (ys.map (fun y => if x = y then c else 0)).sum = if x ∈ ys then c else 0
  | [], _ => by simp
  | y :: ys, h => by
    have hnd := List.nodup_cons.mp h
    simp only [List.map_cons, List.sum_cons, List.mem_cons]
    rcases eq_or_ne x y with rfl | hxy
    · rw [sum_map_ite_mem x c ys hnd.2]
      simp [hnd.1]
    · rw [sum_map_ite_mem x c ys hnd.2]
      simp [hxy]

/-- Summing a fiberwise sum over a duplicate-free list of fiber keys is
the same as a single filtered sum. -/
lemma fiber_sum (q : Tx → Bool) (f : Tx → Int) :
    ∀ (L : List Tx) (ys : List Int), ys.Nodup →
      (ys.map (fun y =>
        ((L.filter (fun t => q t && decide (t.year = y))).map f).sum)).sum
      = ((L.filter (fun t => q t && decide (t.year ∈ ys))).map f).sum := by
  intro L
  induction L with
  | nil => intro ys _; simp
  | cons t L ih =>
    intro ys hnd
    by_cases hq : q t
    · have h1 : ∀ y ∈ ys,
          ((List.filter (fun u => q u && decide (u.year = y)) (t :: L)).map f).sum
          = (fun y => (if t.year = y then f t else 0)
              + ((List.filter (fun u => q u && decide (u.year = y)) L).map f).sum) y := by
        intro y _
        by_cases hy : t.year = y
        · simp [List.filter_cons, hq, hy]
        · simp [List.filter_cons, hq, hy]
      rw [List.map_congr_left h1, sum_map_add, sum_map_ite_mem t.year (f t) ys hnd,
        ih ys hnd]
      by_cases hm : t.year ∈ ys
      · simp [List.filter_cons, hq, hm]
      · simp [List.filter_cons, hq, hm]
    · have h1 : ∀ y ∈ ys,
          ((List.filter (fun u => q u && decide (u.year = y)) (t :: L)).map f).sum
          = (fun y =>
              ((List.filter (fun u => q u && decide (u.year = y)) L).map f).sum) y := by
        intro y _
        simp [List.filter_cons, hq]
      rw [List.map_congr_left h1, ih ys hnd]
      simp [List.filter_cons, hq]

lemma mem_yearRange {a b y : Int} : y ∈ yearRange a b ↔ a ≤ y ∧ y ≤ b := by
  simp only [yearRange, List.mem_map, List.mem_range]
  constructor
  · rintro ⟨i, hi, rfl⟩
    omega
  · rintro ⟨h1, h2⟩
    exact ⟨(y - a).toNat, by omega, by omega⟩

lemma yearRange_nodup (a b : Int) : (yearRange a b).Nodup := by
  refine List.Nodup.map ?_ (List.nodup_range _)
  intro i j h
  simp only at h
  omega

/-- The first component of the accrual fold accumulates exactly the
per-year deposits of the visited years. -/
lemma accrual_fst (s : Sched) (L : List Tx) (a : Int) :
    ∀ (ys : List Int) (st : Int × Int),
      (ys.foldl (accrualStep s L a) st).1 = st.1 + (ys.map (depositsIn L)).sum
  | [], st => by simp
  | y :: ys, st => by
    rw [List.foldl_cons, accrual_fst s L a ys]
    simp only [accrualStep, List.map_cons, List.sum_cons]
    ring

/-- The carry-forward component of the accrual fold stays non-negative. -/
lemma accrual_cf_nonneg (s : Sched) (L : List Tx) (a : Int) :
    ∀ (ys : List Int) (st : Int × Int), 0 ≤ st.2 →
      0 ≤ (ys.foldl (accrualStep s L a) st).2
  | [], _, h => h
  | y :: ys, st, _ => by
    rw [List.foldl_cons]
    exact accrual_cf_nonneg s L a ys _ (le_max_right _ _)

/-- The loop's `room_used` is the sum of the positive amounts dated in
`[a, b]`. -/
lemma room_used_eq (s : Sched) (L : List Tx) (a b : Int) :
    room_used s L a b = depositsInRange L a b := by
  have h := fiber_sum (fun t => decide (t.amount > 0)) (fun t => t.amount) L
    (yearRange a b) (yearRange_nodup a b)
  have h2 : room_used s L a b
      = ((yearRange a b).map (depositsIn L)).sum := by
    have := accrual_fst s L a (yearRange a b) (0, 0)
    simpa [room_used, accrualFold] using this
  rw [h2]
  have h3 : ((yearRange a b).map (depositsIn L)).sum
      = ((L.filter (fun t =>
          decide (t.amount > 0) && decide (t.year ∈ yearRange a b))).map
        (fun t => t.amount)).sum := h
  rw [h3, depositsInRange]
  have h4 : L.filter (fun t =>
        decide (t.amount > 0) && decide (t.year ∈ yearRange a b))
      = L.filter (fun t =>
        decide (t.amount > 0) && (decide (a ≤ t.year) && decide (t.year ≤ b))) := by
    apply List.filter_congr
    intro t _
    by_cases hp : t.amount > 0
    · simp [hp, mem_yearRange]
    · simp [hp]
  rw [h4]

/-- The grouped pre-current-year withdrawal sum of source line 230 equals
the flat per-transaction sum. -/
lemma wBeforeG_eq (L : List Tx) (b : Int) :
    withdrawalsBeforeG L b = withdrawalsBefore L b := by
  have hnd : ((withdrawalYears L).filter (fun y => decide (y < b))).Nodup :=
    (List.nodup_dedup _).filter _
  have h := fiber_sum (fun t => decide (t.amount < 0)) (fun t => -t.amount) L
    ((withdrawalYears L).filter (fun y => decide (y < b))) hnd
  rw [withdrawalsBeforeG]
  have h3 : (((withdrawalYears L).filter (fun y => decide (y < b))).map
      (withdrawalsIn L)).sum
      = ((L.filter (fun t => decide (t.amount < 0) &&
          decide (t.year ∈ (withdrawalYears L).filter (fun y => decide (y < b))))).map
        (fun t => -t.amount)).sum := h
  rw [h3, withdrawalsBefore]
  have h4 : L.filter (fun t => decide (t.amount < 0) &&
        decide (t.year ∈ (withdrawalYears L).filter (fun y => decide (y < b))))
      = L.filter (fun t => decide (t.amount < 0) && decide (t.year < b)) := by
    apply List.filter_congr
    intro t ht
    by_cases hneg : t.amount < 0
    · have hmem : t.year ∈ withdrawalYears L := by
        simp only [withdrawalYears, List.mem_dedup, List.mem_map, List.mem_filter]
        exact ⟨t, ⟨ht, by simpa using hneg⟩, rfl⟩
      simp [hneg, List.mem_filter, hmem]
    · simp [hneg]
  rw [h4]

/-- A successful association-list lookup returns a stored pair. -/
lemma lookup_mem (s : Sched) (y v : Int) (h : s.lookup y = some v) : (y, v) ∈ s := by
  obtain ⟨l₁, l₂, rfl, -⟩ := List.lookup_eq_some_iff.mp h
  simp

/-- `sumIndexed` over a schedule with non-negative limits is
non-negative when it succeeds. -/
lemma sumIndexed_nonneg (s : Sched) (hs : ∀ p ∈ s, 0 ≤ p.2) :
    ∀ (ys : List Int) (tl : Int), sumIndexed s ys = some tl → 0 ≤ tl
  | [], tl, h => by
    simp only [sumIndexed, Option.some.injEq] at h
    omega
  | y :: ys, tl, h => by
    simp only [sumIndexed] at h
    cases hv : schedIndex s y with
    | none => rw [hv] at h; exact absurd h (by simp)
    | some v =>
      cases hr : sumIndexed s ys with
      | none => rw [hv, hr] at h; exact absurd h (by simp)
      | some r =>
        rw [hv, hr] at h
        simp only [Option.some.injEq] at h
        have h1 : 0 ≤ v := hs (y, v) (lookup_mem s y v hv)
        have h2 : 0 ≤ r := sumIndexed_nonneg s hs ys r hr
        omega

/-- `depositsInRange` depends on the ledger only through its deposit
transactions. -/
lemma depositsInRange_filter (L : List Tx) (a b : Int) :
    depositsInRange L a b
      = (((L.filter (fun t => decide (t.amount > 0))).filter
          (fun t => decide (a ≤ t.year) && decide (t.year ≤ b))).map
        (fun t => t.amount)).sum := by
  have h : L.filter (fun t =>
        decide (t.amount > 0) && (decide (a ≤ t.year) && decide (t.year ≤ b)))
      = (L.filter (fun t => decide (t.amount > 0))).filter
        (fun t => decide (a ≤ t.year) && decide (t.year ≤ b)) := by
    rw [List.filter_filter]
    apply List.filter_congr
    intro t _
    exact Bool.and_comm _ _
  rw [depositsInRange, h]

/-- `withdrawalsBefore` depends on the ledger only through its withdrawal
transactions. -/
lemma withdrawalsBefore_filter (L : List Tx) (b : Int) :
    withdrawalsBefore L b
      = (((L.filter (fun t => decide (t.amount < 0))).filter
          (fun t => decide (t.year < b))).map (fun t => -t.amount)).sum := by
  have h : L.filter (fun t => decide (t.amount < 0) && decide (t.year < b))
      = (L.filter (fun t => decide (t.amount < 0))).filter
        (fun t => decide (t.year < b)) := by
    rw [List.filter_filter]
    apply List.filter_congr
    intro t _
    exact Bool.and_comm _ _
  rw [withdrawalsBefore, h]

/-! ### Claim theorems -/

/-- C2: for every schedule, startYear ≤ currentYear and ledger on which
the summary computation succeeds, `totalRemaining` equals
`totalLifetimeLimit` plus the summed magnitudes of all withdrawals dated
in years strictly before `currentYear`, minus `roomUsed`; withdrawals
dated in `currentYear` itself are excluded by the strict bound. -/
theorem tfsa_C2_totalRemaining (s : Sched) (a b : Int) (L : List Tx)
    (sum : Summary) (hab : a ≤ b) (h : computeSummary s a b L = some sum) :
    sum.totalRemaining
      = sum.totalLifetimeLimit + withdrawalsBefore L b - sum.roomUsed := by
  simp only [computeSummary] at h
  rcases Option.map_eq_some'.mp h with ⟨tl, htl, rfl⟩
  simp [wBeforeG_eq]

theorem tfsa_C2_witness :
    (Summary.mk 18000 6000 14000 false).totalRemaining
      = (Summary.mk 18000 6000 14000 false).totalLifetimeLimit
        + withdrawalsBefore [⟨2020, 6000⟩, ⟨2020, -2000⟩] 2022
        - (Summary.mk 18000 6000 14000 false).roomUsed :=
  tfsa_C2_totalRemaining [(2020, 6000), (2021, 6000), (2022, 6000)] 2020 2022
    [⟨2020, 6000⟩, ⟨2020, -2000⟩] (Summary.mk 18000 6000 14000 false)
    (by decide) (by decide)

/-- C5: for every schedule, startYear ≤ currentYear and ledger, the
carry-forward component of the accrual fold is non-negative after every
prefix of the year range, and each iteration sets it to
`max (roomThisYear - deposit) 0`, so an over-contribution never
propagates a negative balance into a later year. -/
theorem tfsa_C5_carry_nonneg (s : Sched) (L : List Tx) (a b : Int)
    (hab : a ≤ b) :
    (∀ k : Nat,
      0 ≤ (((yearRange a b).take k).foldl (accrualStep s L a) (0, 0)).2)
    ∧ ∀ (st : Int × Int) (yr : Int),
        (accrualStep s L a st yr).2
          = max (room_this_year s L a st.2 yr - depositsIn L yr) 0 := by
  constructor
  · intro k
    exact accrual_cf_nonneg s L a _ _ (le_refl 0)
  · intro st yr
    rfl

theorem tfsa_C5_witness :
    0 ≤ (((yearRange 2020 2022).take 2).foldl
      (accrualStep [(2020, 6000), (2021, 6000), (2022, 6000)]
        [⟨2020, 7000⟩] 2020) (0, 0)).2 :=
  (tfsa_C5_carry_nonneg [(2020, 6000), (2021, 6000), (2022, 6000)]
    [⟨2020, 7000⟩] 2020 2022 (by decide)).1 2

/-- C7: for every schedule, startYear ≤ currentYear and ledger on which
the summary computation succeeds, `isOverContributed` is true iff
`roomUsed` strictly exceeds `totalLifetimeLimit`; moreover there is an
input (deposit 7000 against a 6000 single-year limit within a 12000
lifetime limit) where a year's room is exceeded — the carry-forward
clamp fires — yet the flag stays false. -/
theorem tfsa_C7_overflag :
    (∀ (s : Sched) (a b : Int) (L : List Tx) (sum : Summary),
        a ≤ b → computeSummary s a b L = some sum →
        (sum.isOverContributed = true
          ↔ sum.totalLifetimeLimit < sum.roomUsed))
    ∧ (room_this_year [(2020, 6000), (2021, 6000)] [⟨2020, 7000⟩] 2020 0 2020
          - depositsIn [⟨2020, 7000⟩] 2020 < 0
        ∧ (computeSummary [(2020, 6000), (2021, 6000)] 2020 2021
            [⟨2020, 7000⟩]).map Summary.isOverContributed = some false) := by
  constructor
  · intro s a b L sum hab h
    simp only [computeSummary] at h
    rcases Option.map_eq_some'.mp h with ⟨tl, htl, rfl⟩
    simp [gt_iff_lt]
  · exact ⟨by decide, by decide⟩

theorem tfsa_C7_witness :
    (Summary.mk 6000 7000 (-1000) true).isOverContributed = true
      ↔ (Summary.mk 6000 7000 (-1000) true).totalLifetimeLimit
        < (Summary.mk 6000 7000 (-1000) true).roomUsed :=
  tfsa_C7_overflag.1 [(2020, 6000)] 2020 2020 [⟨2020, 7000⟩]
    (Summary.mk 6000 7000 (-1000) true) (by decide) (by decide)

/-- C8: for every schedule with non-negative limits and every
startYear ≤ currentYear, the empty ledger yields `roomUsed = 0`,
`totalRemaining = totalLifetimeLimit` and `isOverContributed = false`;
in particular, with schedule 2020-2022 at 6000 each, the summary is
exactly (18000, 0, 18000, false). -/
theorem tfsa_C8_empty_ledger :
    (∀ (s : Sched) (a b : Int) (sum : Summary),
        a ≤ b → (∀ p ∈ s, 0 ≤ p.2) → computeSummary s a b [] = some sum →
        sum.roomUsed = 0 ∧ sum.totalRemaining = sum.totalLifetimeLimit
          ∧ sum.isOverContributed = false)
    ∧ computeSummary [(2020, 6000), (2021, 6000), (2022, 6000)] 2020 2022 []
        = some (Summary.mk 18000 0 18000 false) := by
  constructor
  · intro s a b sum hab hs h
    simp only [computeSummary] at h
    rcases Option.map_eq_some'.mp h with ⟨tl, htl, rfl⟩
    have hru : room_used s [] a b = 0 := by
      rw [room_used_eq]
      rfl
    have htl0 : 0 ≤ tl := sumIndexed_nonneg s hs _ tl htl
    refine ⟨hru, ?_, ?_⟩
    · simp [hru, withdrawalsBeforeG, withdrawalYears]
    · simp only [hru]
      simp [decide_eq_false_iff_not]
      omega
  · decide

theorem tfsa_C8_witness :
    (Summary.mk 18000 0 18000 false).roomUsed = 0
    ∧ (Summary.mk 18000 0 18000 false).totalRemaining
        = (Summary.mk 18000 0 18000 false).totalLifetimeLimit
    ∧ (Summary.mk 18000 0 18000 false).isOverContributed = false :=
  tfsa_C8_empty_ledger.1 [(2020, 6000), (2021, 6000), (2022, 6000)] 2020 2022
    (Summary.mk 18000 0 18000 false) (by decide) (by decide) (by decide)

/-- C9: `roomUsed` equals exactly the sum of the positive transaction
amounts dated in years of `[startYear, currentYear]`, and two ledgers
with the same deposit transactions (withdrawals arbitrary) produce the
same `roomUsed` and the same `isOverContributed`. -/
theorem tfsa_C9_withdrawal_independence (s : Sched) (a b : Int) :
    (∀ L : List Tx, room_used s L a b = depositsInRange L a b)
    ∧ ∀ L1 L2 : List Tx,
        L1.filter (fun t => decide (t.amount > 0))
          = L2.filter (fun t => decide (t.amount > 0)) →
        room_used s L1 a b = room_used s L2 a b
        ∧ (computeSummary s a b L1).map Summary.isOverContributed
            = (computeSummary s a b L2).map Summary.isOverContributed := by
  constructor
  · intro L
    exact room_used_eq s L a b
  · intro L1 L2 hpos
    have hru : room_used s L1 a b = room_used s L2 a b := by
      rw [room_used_eq, room_used_eq, depositsInRange_filter,
        depositsInRange_filter, hpos]
    refine ⟨hru, ?_⟩
    cases hg : get_total_limit s a b with
    | none => simp [computeSummary, hg]
    | some tl => simp [computeSummary, hg, hru]

theorem tfsa_C9_witness :
    room_used [(2020, 6000), (2021, 6000)] [⟨2020, 6000⟩, ⟨2021, -500⟩] 2020 2021
      = room_used [(2020, 6000), (2021, 6000)] [⟨2020, 6000⟩] 2020 2021 :=
  ((tfsa_C9_withdrawal_independence [(2020, 6000), (2021, 6000)] 2020 2021).2
    [⟨2020, 6000⟩, ⟨2021, -500⟩] [⟨2020, 6000⟩] (by decide)).1

/-- C10: two ledgers with the same total deposit amount over the years
of `[startYear, currentYear]` and identical withdrawal transactions
produce identical summaries, regardless of which in-range year each
deposit falls in. -/
theorem tfsa_C10_redistribution (s : Sched) (a b : Int) (L1 L2 : List Tx)
    (hab : a ≤ b)
    (hdep : depositsInRange L1 a b = depositsInRange L2 a b)
    (hw : L1.filter (fun t => decide (t.amount < 0))
      = L2.filter (fun t => decide (t.amount < 0))) :
    computeSummary s a b L1 = computeSummary s a b L2 := by
  have hru : room_used s L1 a b = room_used s L2 a b := by
    rw [room_used_eq, room_used_eq, hdep]
  have hwb : withdrawalsBeforeG L1 b = withdrawalsBeforeG L2 b := by
    rw [wBeforeG_eq, wBeforeG_eq, withdrawalsBefore_filter,
      withdrawalsBefore_filter, hw]
  cases hg : get_total_limit s a b with
  | none => simp [computeSummary, hg]
  | some tl => simp [computeSummary, hg, hru, hwb]

theorem tfsa_C10_witness :
    computeSummary [(2020, 6000), (2021, 6000), (2022, 6000)] 2020 2022
        [⟨2020, 6000⟩]
      = computeSummary [(2020, 6000), (2021, 6000), (2022, 6000)] 2020 2022
        [⟨2021, 3000⟩, ⟨2022, 3000⟩] :=
  tfsa_C10_redistribution [(2020, 6000), (2021, 6000), (2022, 6000)] 2020 2022
    [⟨2020, 6000⟩] [⟨2021, 3000⟩, ⟨2022, 3000⟩]
    (by decide) (by decide) (by decide)

/-- C1 counterexample: a withdrawal of 2000 dated in the start year 2020
changes the 2021 `roomThisYear` of the trace (14000 with it, 12000
without it), so withdrawals dated in the start year ARE credited to the
following year's `roomThisYear`, contradicting the claim's last
conjunct. -/
theorem tfsa_C1_counterexample :
    room_this_year [(2020, 6000), (2021, 6000)] [⟨2020, -2000⟩] 2020
        (accrualFold [(2020, 6000), (2021, 6000)] [⟨2020, -2000⟩] 2020 2020).2
        2021
      ≠ room_this_year [(2020, 6000), (2021, 6000)] [] 2020
        (accrualFold [(2020, 6000), (2021, 6000)] [] 2020 2020).2 2021 := by
  decide

/-- C1 (amended): the withdrawal credit for year Y is the sum of the
withdrawal magnitudes dated in Y-1 when Y > startYear and 0 when
Y = startYear; adding a withdrawal dated in year `t.year` changes the
credit entering `roomThisYear` exactly in year `t.year + 1`, and only
when `t.year ≥ startYear` — so a withdrawal is credited exactly once, in
the following year, never in its own year, and withdrawals dated
strictly before the start year are never credited. -/
theorem tfsa_C1_amended (s : Sched) (L : List Tx) (a cf : Int) (t : Tx)
    (ht : t.amount < 0) :
    (∀ Y : Int, a < Y → withdrawalCredit L a Y = withdrawalsIn L (Y - 1))
    ∧ withdrawalCredit L a a = 0
    ∧ ∀ yr : Int, room_this_year s (t :: L) a cf yr
        = room_this_year s L a cf yr
          + (if a ≤ t.year ∧ yr = t.year + 1 then -t.amount else 0) := by
  refine ⟨?_, ?_, ?_⟩
  · intro Y hY
    simp [withdrawalCredit, hY]
  · simp [withdrawalCredit]
  · intro yr
    simp only [room_this_year, withdrawalCredit]
    by_cases hyr : yr > a
    · simp only [if_pos hyr]
      by_cases hy : t.year = yr - 1
      · have hcons : withdrawalsIn (t :: L) (yr - 1)
            = -t.amount + withdrawalsIn L (yr - 1) := by
          simp [withdrawalsIn, List.filter_cons, ht, hy]
        rw [hcons, if_pos (by omega : a ≤ t.year ∧ yr = t.year + 1)]
        ring
      · have hcons : withdrawalsIn (t :: L) (yr - 1)
            = withdrawalsIn L (yr - 1) := by
          simp [withdrawalsIn, List.filter_cons, hy]
        rw [hcons, if_neg (by omega : ¬(a ≤ t.year ∧ yr = t.year + 1))]
        ring
    · simp only [if_neg hyr]
      rw [if_neg (by omega : ¬(a ≤ t.year ∧ yr = t.year + 1))]
      ring

theorem tfsa_C1_witness :
    withdrawalCredit ([] : List Tx) 2020 2020 = 0
    ∧ room_this_year [(2020, 6000), (2021, 6000)] [⟨2020, -2000⟩] 2020 6000 2021
        = room_this_year [(2020, 6000), (2021, 6000)] [] 2020 6000 2021
          + (if (2020 : Int) ≤ 2020 ∧ (2021 : Int) = 2020 + 1
              then -(-2000 : Int) else 0) := by
  have h := tfsa_C1_amended [(2020, 6000), (2021, 6000)] [] 2020 6000
    ⟨2020, -2000⟩ (by decide)
  exact ⟨h.2.1, h.2.2 2021⟩

/-- C3 (code bug): the claim — and the spec's LimitSchedule contract —
says `totalLimit(startYear, throughYear)` is the sum of `limitFor(y)`
over the range, with unlisted years contributing 0 and no error, so that
running past the last tabulated year (2025) cannot fail.  The accrual
loop (line 223) indeed uses `.get(yr, 0)` and completes, but
`get_total_limit` (line 143) uses plain dict indexing `TFSA_LIMITS[y]`
and raises `KeyError` (modelled as `none`) as soon as the range reaches
2026, where the contract's value would be 102000 (the 2009-2025 total,
2026 contributing 0). -/
theorem tfsa_C3_keyerror :
    schedGet TFSA_LIMITS 2025 = 7000
    ∧ schedGet TFSA_LIMITS 2026 = 0
    ∧ get_total_limit TFSA_LIMITS 2009 2026 = none
    ∧ ((yearRange 2009 2026).map (schedGet TFSA_LIMITS)).sum = 102000
    ∧ room_used TFSA_LIMITS [] 2009 2026 = 0 := by
  decide

/-- C4 counterexample: adding a withdrawal of 1000 dated 2019 — outside
the range [2020, 2022] — changes the Summary's `totalRemaining` (19000
with it, 18000 without it), contradicting the claim that every field is
unchanged. -/
theorem tfsa_C4_counterexample :
    (computeSummary [(2020, 6000), (2021, 6000), (2022, 6000)] 2020 2022
        [⟨2019, -1000⟩]).map Summary.totalRemaining
      ≠ (computeSummary [(2020, 6000), (2021, 6000), (2022, 6000)] 2020 2022
        []).map Summary.totalRemaining := by
  decide

/-- C4 (amended): adding a transaction dated outside
[startYear, currentYear] leaves `totalLifetimeLimit`, `roomUsed` and
`isOverContributed` unchanged, and leaves `totalRemaining` unchanged
unless the transaction is a withdrawal dated before `currentYear` (i.e.
before `startYear`), in which case `totalRemaining` grows by the
withdrawal's magnitude — the credit sum of source line 230 has no lower
year bound. -/
theorem tfsa_C4_amended (s : Sched) (a b : Int) (L : List Tx) (t : Tx)
    (sum : Summary) (hout : t.year < a ∨ b < t.year)
    (h : computeSummary s a b L = some sum) :
    computeSummary s a b (t :: L)
      = some { totalLifetimeLimit := sum.totalLifetimeLimit
               roomUsed := sum.roomUsed
               totalRemaining := sum.totalRemaining
                 + (if t.amount < 0 ∧ t.year < b then -t.amount else 0)
               isOverContributed := sum.isOverContributed } := by
  simp only [computeSummary] at h ⊢
  rcases Option.map_eq_some'.mp h with ⟨tl, htl, rfl⟩
  rw [htl]
  have hru : room_used s (t :: L) a b = room_used s L a b := by
    rw [room_used_eq, room_used_eq]
    have hcond : (decide (t.amount > 0)
        && (decide (a ≤ t.year) && decide (t.year ≤ b))) = false := by
      rcases hout with h1 | h1 <;>
        simp only [Bool.and_eq_false_iff, decide_eq_false_iff_not] <;> omega
    simp [depositsInRange, List.filter_cons, hcond]
  have hwb : withdrawalsBeforeG (t :: L) b
      = withdrawalsBeforeG L b
        + (if t.amount < 0 ∧ t.year < b then -t.amount else 0) := by
    rw [wBeforeG_eq, wBeforeG_eq]
    by_cases hc : t.amount < 0 ∧ t.year < b
    · have hcond : (decide (t.amount < 0) && decide (t.year < b)) = true := by
        simp [hc.1, hc.2]
      rw [if_pos hc]
      simp only [withdrawalsBefore, List.filter_cons, hcond]
      simp
      ring
    · have hcond : (decide (t.amount < 0) && decide (t.year < b)) = false := by
        simp only [Bool.and_eq_false_iff, decide_eq_false_iff_not]
        omega
      rw [if_neg hc]
      simp [withdrawalsBefore, List.filter_cons, hcond]
  simp only [Option.map_some', Option.some.injEq]
  simp only [Summary.mk.injEq]
  refine ⟨trivial, hru, ?_, by rw [hru]⟩
  rw [hru, hwb]
  ring

theorem tfsa_C4_witness :
    computeSummary [(2020, 6000), (2021, 6000), (2022, 6000)] 2020 2022
        [⟨2025, 500⟩]
      = some { totalLifetimeLimit := (Summary.mk 18000 0 18000 false).totalLifetimeLimit
               roomUsed := (Summary.mk 18000 0 18000 false).roomUsed
               totalRemaining := (Summary.mk 18000 0 18000 false).totalRemaining
                 + (if (500 : Int) < 0 ∧ (2025 : Int) < 2022 then -(500 : Int) else 0)
               isOverContributed := (Summary.mk 18000 0 18000 false).isOverContributed } :=
  tfsa_C4_amended [(2020, 6000), (2021, 6000), (2022, 6000)] 2020 2022 []
    ⟨2025, 500⟩ (Summary.mk 18000 0 18000 false) (by decide) (by decide)

/-- C6 counterexample: with startYear 2022 > currentYear 2021 and a
ledger holding a withdrawal of 1000 dated 2019, the engine returns a
summary with `totalRemaining = 1000`, not the zero/empty Summary the
claim promises for every ledger. -/
theorem tfsa_C6_counterexample :
    computeSummary [(2020, 6000)] 2022 2021 [⟨2019, -1000⟩]
      ≠ some (Summary.mk 0 0 0 false) := by
  decide

/-- C6 (amended): when startYear > currentYear the engine does not
throw: it returns `totalLifetimeLimit = 0`, `roomUsed = 0`,
`isOverContributed = false`, and `totalRemaining` equal to the summed
magnitudes of the ledger's withdrawals dated before `currentYear` — the
zero Summary exactly when the ledger has no such withdrawals. -/
theorem tfsa_C6_amended (s : Sched) (a b : Int) (L : List Tx) (h : b < a) :
    computeSummary s a b L
      = some { totalLifetimeLimit := 0, roomUsed := 0,
               totalRemaining := withdrawalsBefore L b,
               isOverContributed := false } := by
  have hempty : yearRange a b = [] := by
    have h0 : (b + 1 - a).toNat = 0 := by omega
    simp [yearRange, h0]
  have hw := wBeforeG_eq L b
  simp [computeSummary, get_total_limit, hempty, sumIndexed, room_used,
    accrualFold, hw]

theorem tfsa_C6_witness :
    computeSummary [(2020, 6000)] 2022 2021 [⟨2019, -1000⟩]
      = some { totalLifetimeLimit := 0, roomUsed := 0,
               totalRemaining := withdrawalsBefore [⟨2019, -1000⟩] 2021,
               isOverContributed := false } :=
  tfsa_C6_amended [(2020, 6000)] 2022 2021 [⟨2019, -1000⟩] (by decide)

end TFSA
